import Mathlib

/-!
Shallow embedding of the kuber-code-s3 file-storage microservice core:
the upload/replace/delete orchestration in
`internal/service/file_service.go`, the repository error mappings in
`internal/repository/mongo_repository.go` and
`internal/repository/minio_repository.go`, the handler validation gate
and status mapping in the handler file, and the `apiKeyAuth` middleware
in `main.go`.

Stateful I/O against the two backing stores is embedded by passing the
outcome of each store interaction in explicitly (an environment of
outcomes, one per call site) and recording the sequence of attempted
store operations as a trace.
-/

/-- Go error values that flow through the service, embedded structurally.
`wrapped` models `fmt.Errorf with a percent-w verb` (message plus wrapped
inner error); `other` models any other distinct error value such as a
driver error or an `io.Copy` failure. The named constructors model the
package-level sentinel error variables. -/
inductive GoError where
  | errFileNotFoundService
  | errInvalidFile
  | errDocumentNotFound
  | errFileNotFoundStorage
  | mongoErrNoDocuments
  | wrapped (msg : String) (inner : GoError)
  | other (msg : String)
deriving DecidableEq

/-- Go `errors.Is`: equality against the target, else unwrap and recurse.
Only `wrapped` (the percent-w verb of `fmt.Errorf`) unwraps. -/
def errorsIs : GoError → GoError → Bool
  | GoError.wrapped msg inner, t =>
      (GoError.wrapped msg inner = t) || errorsIs inner t
  | e, t => e = t

/-- Go `path/filepath.Ext` (Unix separator): the suffix of the path
beginning at the final dot in the final path element, empty if the final
element has no dot. Scans from the right until a dot or a separator. -/
def extAux : List Char → List Char → List Char
  | [], _ => []
  | c :: rest, acc =>
      if c = '/' then []
      else if c = '.' then '.' :: acc
      else extAux rest (c :: acc)

/-- Go `path/filepath.Ext` on strings. -/
def filepathExt (path : String) : String :=
  String.mk (extAux path.data.reverse [])

/-- Go `strings.TrimSuffix`. -/
def trimSuffix (s suffix : String) : String :=
  if suffix.data.isSuffixOf s.data then s.dropRight suffix.length else s

/-- Go `strings.ToLower`, restricted to the ASCII range used by the
extension allow-list. -/
def stringToLower (s : String) : String :=
  String.mk (s.data.map Char.toLower)

/-- `models.FileMetadata` from `internal/models` (src/unnamed/part_000).
`uploadDate` embeds `time.Time` as an opaque timestamp. -/
structure FileMetadata where
  id : String
  originalName : String
  fileSize : Int
  contentType : String
  bucketName : String
  uploadDate : Nat
  url : String
deriving DecidableEq

/-- Outcome of the underlying MongoDB driver `FindOne` call. -/
inductive FindOutcome where
  | found (m : FileMetadata)
  | noDocuments
  | failure (msg : String)
deriving DecidableEq

/-- Outcome of the underlying minio client `RemoveObject` call.
`noSuchKey` is the store reporting the object absent. -/
inductive RemoveOutcome where
  | ok
  | noSuchKey
  | failure (msg : String)
deriving DecidableEq

/-- Outcome of the underlying minio client `FPutObject` call. -/
inductive PutOutcome where
  | ok
  | failure (msg : String)
deriving DecidableEq

/-- Outcome of the underlying MongoDB driver `InsertOne` call. -/
inductive MetaSaveOutcome where
  | ok
  | failure (msg : String)
deriving DecidableEq

/-- Outcome of the underlying MongoDB driver `DeleteOne` call:
success with a deletion, success with zero deletions, or a driver
error. -/
inductive MetaDeleteOutcome where
  | deleted
  | zeroDeleted
  | failure (msg : String)
deriving DecidableEq

/-- Outcome of the underlying MongoDB driver `FindOneAndUpdate` call. -/
inductive MetaUpdateOutcome where
  | updated
  | noDocuments
  | failure (msg : String)
deriving DecidableEq

/-- `MongoRepository.GetMetadata`: maps the driver not-found sentinel
`mongo.ErrNoDocuments` to the repository sentinel `ErrDocumentNotFound`,
passes other driver errors through. -/
def MongoRepository.GetMetadata : FindOutcome → Except GoError FileMetadata
  | FindOutcome.found m => Except.ok m
  | FindOutcome.noDocuments => Except.error GoError.errDocumentNotFound
  | FindOutcome.failure msg => Except.error (GoError.other msg)

/-- `MongoRepository.SaveMetadata`: returns the driver insert error
unmodified on failure. -/
def MongoRepository.SaveMetadata : MetaSaveOutcome → Option GoError
  | MetaSaveOutcome.ok => none
  | MetaSaveOutcome.failure msg => some (GoError.other msg)

/-- `MongoRepository.DeleteMetadata`: driver error passed through;
zero documents deleted mapped to `ErrDocumentNotFound`. -/
def MongoRepository.DeleteMetadata : MetaDeleteOutcome → Option GoError
  | MetaDeleteOutcome.deleted => none
  | MetaDeleteOutcome.zeroDeleted => some GoError.errDocumentNotFound
  | MetaDeleteOutcome.failure msg => some (GoError.other msg)

/-- `MongoRepository.UpdateMetadata`: `mongo.ErrNoDocuments` from
`FindOneAndUpdate` mapped to `ErrDocumentNotFound`, other errors passed
through. -/
def MongoRepository.UpdateMetadata : MetaUpdateOutcome → Option GoError
  | MetaUpdateOutcome.updated => none
  | MetaUpdateOutcome.noDocuments => some GoError.errDocumentNotFound
  | MetaUpdateOutcome.failure msg => some (GoError.other msg)

/-- `MinioRepository.UploadFile`: on success returns the public URL
built from endpoint host, bucket and object name; on failure wraps the
client error as an upload error. -/
def MinioRepository.UploadFile (endpointHost bucket objectName : String) :
    PutOutcome → Except GoError String
  | PutOutcome.ok =>
      Except.ok ("http://" ++ endpointHost ++ "/" ++ bucket ++ "/" ++ objectName)
  | PutOutcome.failure msg =>
      Except.error (GoError.wrapped "upload error" (GoError.other msg))

/-- `MinioRepository.DeleteFile`: the client reporting code `NoSuchKey`
is mapped to the storage sentinel `ErrFileNotFound` (file not found in
storage); any other client error is wrapped as a delete error. -/
def MinioRepository.DeleteFile : RemoveOutcome → Option GoError
  | RemoveOutcome.ok => none
  | RemoveOutcome.noSuchKey => some GoError.errFileNotFoundStorage
  | RemoveOutcome.failure msg =>
      some (GoError.wrapped "delete error" (GoError.other msg))

/-- One attempted backing-store operation, with the key or identifier
it addressed. The trace of a run records these in call order,
regardless of whether the call succeeded. -/
inductive StoreOp where
  | blobPut (key : String)
  | blobDelete (key : String)
  | metaInsert (id : String)
  | metaUpdate (id : String)
  | metaDelete (id : String)
deriving DecidableEq

def StoreOp.isBlobPut : StoreOp → Bool
  | StoreOp.blobPut _ => true
  | _ => false

def StoreOp.isBlobDelete : StoreOp → Bool
  | StoreOp.blobDelete _ => true
  | _ => false

def StoreOp.isMetaInsert : StoreOp → Bool
  | StoreOp.metaInsert _ => true
  | _ => false

def StoreOp.isMetaDelete : StoreOp → Bool
  | StoreOp.metaDelete _ => true
  | _ => false

def countBlobPuts (t : List StoreOp) : Nat :=
  (t.filter StoreOp.isBlobPut).length

def countBlobDeletes (t : List StoreOp) : Nat :=
  (t.filter StoreOp.isBlobDelete).length

def countMetaInserts (t : List StoreOp) : Nat :=
  (t.filter StoreOp.isMetaInsert).length

def countMetaDeletes (t : List StoreOp) : Nat :=
  (t.filter StoreOp.isMetaDelete).length

/-- Outcome of `saveUploadedFile`, staging the multipart stream to the
local temporary path. `copyFailure` is an `io.Copy` error after
`os.Create` succeeded, so the destination file exists partially
written; the three earlier failures occur before the destination file
is created. -/
inductive SaveOutcome where
  | openFailure (msg : String)
  | mkdirFailure (msg : String)
  | createFailure (msg : String)
  | copyFailure (msg : String)
  | ok
deriving DecidableEq

/-- `saveUploadedFile`: result error (if any) paired with whether the
destination file exists on disk when the function returns. The
function itself never removes the file it created. -/
def saveUploadedFile : SaveOutcome → Option GoError × Bool
  | SaveOutcome.openFailure msg => (some (GoError.other msg), false)
  | SaveOutcome.mkdirFailure msg => (some (GoError.other msg), false)
  | SaveOutcome.createFailure msg => (some (GoError.other msg), false)
  | SaveOutcome.copyFailure msg => (some (GoError.other msg), true)
  | SaveOutcome.ok => (none, true)

/-- True exactly when `saveUploadedFile` fails after having created the
destination file (the `io.Copy` failure path). -/
def SaveOutcome.leavesPartialFile : SaveOutcome → Bool
  | SaveOutcome.copyFailure _ => true
  | _ => false

/-- Environment of store outcomes consumed by one `UploadFile` run, one
per call site in call order. `compensationDelete` is the outcome of the
best-effort blob delete after a metadata insert failure; the code
discards it. -/
structure UploadEnv where
  save : SaveOutcome
  put : PutOutcome
  metaSave : MetaSaveOutcome
  compensationDelete : RemoveOutcome
deriving DecidableEq

/-- Observable outcome of one `UploadFile` run: the returned value, the
attempted store operations in order, whether the temporary staging file
still exists on return, and the metadata record actually persisted (if
the insert succeeded). -/
structure UploadResult where
  result : Except GoError String
  trace : List StoreOp
  tempFileRemains : Bool
  savedMetadata : Option FileMetadata

/-- `FileService.UploadFile`. Computes the object key as the fresh
identifier plus the extension of the uploaded filename, stages the
stream, writes the blob, then inserts metadata whose `originalName` has
the extension stripped off; on metadata failure performs one
best-effort compensating blob delete and returns the metadata error.
The `defer os.Remove` for the staging file is registered only after
`saveUploadedFile` has returned successfully, so a save failure that
already created the file leaves it behind. -/
def FileService.UploadFile (bucket endpointHost fileID filename : String)
    (size : Int) (headerContentType : String) (now : Nat)
    (env : UploadEnv) : UploadResult :=
  let ext := filepathExt filename
  let objectName := fileID ++ ext
  match saveUploadedFile env.save with
  | (some e, created) =>
      { result := Except.error e, trace := [], tempFileRemains := created,
        savedMetadata := none }
  | (none, _) =>
      match MinioRepository.UploadFile endpointHost bucket objectName env.put with
      | Except.error e =>
          { result := Except.error e, trace := [StoreOp.blobPut objectName],
            tempFileRemains := false, savedMetadata := none }
      | Except.ok url =>
          let metadata : FileMetadata :=
            { id := fileID, originalName := trimSuffix filename ext,
              fileSize := size, contentType := headerContentType,
              bucketName := bucket, uploadDate := now, url := url }
          match MongoRepository.SaveMetadata env.metaSave with
          | some e =>
              { result := Except.error e,
                trace := [StoreOp.blobPut objectName,
                          StoreOp.metaInsert fileID,
                          StoreOp.blobDelete objectName],
                tempFileRemains := false, savedMetadata := none }
          | none =>
              { result := Except.ok url,
                trace := [StoreOp.blobPut objectName,
                          StoreOp.metaInsert fileID],
                tempFileRemains := false, savedMetadata := some metadata }

/-- Environment of store outcomes consumed by one `DeleteFile` run. -/
structure DeleteEnv where
  find : FindOutcome
  blobRemove : RemoveOutcome
  metaDelete : MetaDeleteOutcome
deriving DecidableEq

/-- `FileService.DeleteFile`: look up metadata (mapping a driver
`ErrNoDocuments`, tested with `errors.Is`, to the service sentinel),
compute the object key from the stored `originalName`, delete the blob
— any delete error aborts — then delete the metadata record. Returns
the service-level error (if any) and the trace of attempted store
operations. -/
def FileService.DeleteFile (fileID : String) (env : DeleteEnv) :
    Option GoError × List StoreOp :=
  match MongoRepository.GetMetadata env.find with
  | Except.error e =>
      if errorsIs e GoError.mongoErrNoDocuments then
        (some GoError.errFileNotFoundService, [])
      else (some e, [])
  | Except.ok metadata =>
      let objectName := fileID ++ filepathExt metadata.originalName
      match MinioRepository.DeleteFile env.blobRemove with
      | some e => (some e, [StoreOp.blobDelete objectName])
      | none =>
          match MongoRepository.DeleteMetadata env.metaDelete with
          | some e =>
              (some e, [StoreOp.blobDelete objectName,
                        StoreOp.metaDelete fileID])
          | none =>
              (none, [StoreOp.blobDelete objectName,
                      StoreOp.metaDelete fileID])

/-- Environment of store outcomes consumed by one `ReplaceFile` run. -/
structure ReplaceEnv where
  find : FindOutcome
  oldRemove : RemoveOutcome
  save : SaveOutcome
  put : PutOutcome
  metaUpdate : MetaUpdateOutcome
  compensationDelete : RemoveOutcome
deriving DecidableEq

/-- Observable outcome of one `ReplaceFile` run. -/
structure ReplaceResult where
  result : Except GoError String
  trace : List StoreOp
  tempFileRemains : Bool
  savedMetadata : Option FileMetadata

/-- `FileService.ReplaceFile`: look up the old record, delete the old
blob at the key computed from the stored `originalName` — any delete
error aborts before the new blob is staged — then stage and upload the
new blob under the identifier plus the new filename's extension, and
update the metadata in place; on update failure perform one best-effort
delete of the new blob and return the update error. As in upload, the
`defer os.Remove` is registered only after a successful save. -/
def FileService.ReplaceFile (bucket endpointHost fileID newFilename : String)
    (newSize : Int) (newHeaderContentType : String) (now : Nat)
    (env : ReplaceEnv) : ReplaceResult :=
  match MongoRepository.GetMetadata env.find with
  | Except.error e =>
      if errorsIs e GoError.mongoErrNoDocuments then
        { result := Except.error GoError.errFileNotFoundService, trace := [],
          tempFileRemains := false, savedMetadata := none }
      else
        { result := Except.error e, trace := [],
          tempFileRemains := false, savedMetadata := none }
  | Except.ok oldMetadata =>
      let oldObjectName := fileID ++ filepathExt oldMetadata.originalName
      match MinioRepository.DeleteFile env.oldRemove with
      | some e =>
          { result := Except.error e, trace := [StoreOp.blobDelete oldObjectName],
            tempFileRemains := false, savedMetadata := none }
      | none =>
          let newExt := filepathExt newFilename
          let newObjectName := fileID ++ newExt
          match saveUploadedFile env.save with
          | (some e, created) =>
              { result := Except.error e,
                trace := [StoreOp.blobDelete oldObjectName],
                tempFileRemains := created, savedMetadata := none }
          | (none, _) =>
              match MinioRepository.UploadFile endpointHost bucket newObjectName env.put with
              | Except.error e =>
                  { result := Except.error e,
                    trace := [StoreOp.blobDelete oldObjectName,
                              StoreOp.blobPut newObjectName],
                    tempFileRemains := false, savedMetadata := none }
              | Except.ok url =>
                  let newMetadata : FileMetadata :=
                    { id := fileID,
                      originalName := trimSuffix newFilename newExt,
                      fileSize := newSize,
                      contentType := newHeaderContentType,
                      bucketName := bucket, uploadDate := now, url := url }
                  match MongoRepository.UpdateMetadata env.metaUpdate with
                  | some e =>
                      { result := Except.error e,
                        trace := [StoreOp.blobDelete oldObjectName,
                                  StoreOp.blobPut newObjectName,
                                  StoreOp.metaUpdate fileID,
                                  StoreOp.blobDelete newObjectName],
                        tempFileRemains := false, savedMetadata := none }
                  | none =>
                      { result := Except.ok url,
                        trace := [StoreOp.blobDelete oldObjectName,
                                  StoreOp.blobPut newObjectName,
                                  StoreOp.metaUpdate fileID],
                        tempFileRemains := false,
                        savedMetadata := some newMetadata }

/-- `FileService.GetFileMetadata`: returns the repository result
unmodified (no mapping to the service sentinel). -/
def FileService.GetFileMetadata (find : FindOutcome) :
    Except GoError FileMetadata :=
  MongoRepository.GetMetadata find

/-- The handler's upload extension allow-list (lowercased extensions,
dot included). -/
def allowedExtensionsUpload : List String :=
  [".jpg", ".jpeg", ".png", ".mp4", ".mov", ".avi", ".mkv"]

/-- The handler's upload allow-list for the sniffed content type. -/
def allowedTypesUpload : List String :=
  ["image/jpeg", "image/png", "video/mp4", "video/quicktime",
   "video/x-msvideo", "video/x-matroska"]

/-- Outcome of `detectContentType`: the MIME type computed by
`http.DetectContentType` from the first 512 bytes, or a read/open/seek
failure. -/
inductive DetectOutcome where
  | detected (contentType : String)
  | failure (msg : String)
deriving DecidableEq

/-- Observable outcome of one handler `UploadFile` run: HTTP status,
whether the request passed the validation gate and reached the service,
and the service-level observables. -/
structure HandlerUploadResult where
  status : Nat
  admitted : Bool
  trace : List StoreOp
  tempFileRemains : Bool
  savedMetadata : Option FileMetadata

/-- The handler `UploadFile` (src/unnamed/part_001): lowercased
extension must be in the extension allow-list, content detection must
succeed, and the sniffed type must be in the type allow-list; then the
service is invoked with the file (whose declared header Content-Type,
not the sniffed type, flows into the stored metadata). Service error
maps to 500, success to 200, every validation failure to 400 with no
store operation. -/
def FileHandler.UploadFile (filename : String) (size : Int)
    (headerContentType : String) (detect : DetectOutcome)
    (fileID bucket endpointHost : String) (now : Nat)
    (env : UploadEnv) : HandlerUploadResult :=
  let ext := stringToLower (filepathExt filename)
  if !(allowedExtensionsUpload.contains ext) then
    { status := 400, admitted := false, trace := [],
      tempFileRemains := false, savedMetadata := none }
  else
    match detect with
    | DetectOutcome.failure _ =>
        { status := 400, admitted := false, trace := [],
          tempFileRemains := false, savedMetadata := none }
    | DetectOutcome.detected contentType =>
        if !(allowedTypesUpload.contains contentType) then
          { status := 400, admitted := false, trace := [],
            tempFileRemains := false, savedMetadata := none }
        else
          let r := FileService.UploadFile bucket endpointHost fileID
            filename size headerContentType now env
          { status := match r.result with
              | Except.error _ => 500
              | Except.ok _ => 200,
            admitted := true, trace := r.trace,
            tempFileRemains := r.tempFileRemains,
            savedMetadata := r.savedMetadata }

/-- Status mapping the handler `DeleteFile` applies to the service
result (after the UUID format check): 200 on success, 404 exactly when
the error is the service sentinel `ErrFileNotFound` (compared with Go
equality on the sentinel value), 500 otherwise. -/
def deleteErrorStatus : Option GoError → Nat
  | none => 200
  | some e => if e = GoError.errFileNotFoundService then 404 else 500

/-- Status mapping the handler `ReplaceFile` applies to the service
result: 200 on success, 404 exactly on the service sentinel, 500
otherwise. -/
def replaceErrorStatus : Except GoError String → Nat
  | Except.ok _ => 200
  | Except.error e => if e = GoError.errFileNotFoundService then 404 else 500

/-- Status mapping the handler `GetFileMetadata` applies to the service
result: 200 on success, 404 exactly on the service sentinel, 500
otherwise. -/
def getErrorStatus : Except GoError FileMetadata → Nat
  | Except.ok _ => 200
  | Except.error e => if e = GoError.errFileNotFoundService then 404 else 500

/-- Decision of the `apiKeyAuth` middleware in `main.go`. -/
inductive AuthDecision where
  | proceed
  | abort401
deriving DecidableEq

/-- `apiKeyAuth`: aborts with 401 when the Authorization header differs
from the `API_KEY` environment value, proceeds otherwise. A missing
header reads as the empty string, and an unset environment variable
reads as the empty string. -/
def apiKeyAuth (authHeader apiKeyFromEnv : String) : AuthDecision :=
  if authHeader ≠ apiKeyFromEnv then AuthDecision.abort401
  else AuthDecision.proceed

/-- Helper: whatever the store outcomes, a metadata record persisted by
`FileService.UploadFile` carries the client-declared header
Content-Type in its `contentType` field. -/
theorem uploadFile_savedMetadata_contentType
    (bucket endpointHost fileID filename : String) (size : Int)
    (headerContentType : String) (now : Nat) (env : UploadEnv)
    (m : FileMetadata)
    (h : (FileService.UploadFile bucket endpointHost fileID filename size
          headerContentType now env).savedMetadata = some m) :
    m.contentType = headerContentType := by
  obtain ⟨sv, p, ms, cd⟩ := env
  cases sv <;> cases p <;> cases ms <;>
    (simp_all [FileService.UploadFile, saveUploadedFile,
      MinioRepository.UploadFile, MongoRepository.SaveMetadata];
     try rw [← h])

/-- C1: for an identifier with no metadata record, the driver reports
no documents, the repository returns `ErrDocumentNotFound`, on which
the service's `errors.Is` test for `mongo.ErrNoDocuments` is false, so
Get, Replace and Delete all surface `ErrDocumentNotFound` instead of
the service sentinel `ErrFileNotFound`, and the handlers map it to 500
rather than 404. No storage write or delete is attempted (that part of
the claim holds). -/
theorem C1_unknown_identifier_maps_to_500 :
    errorsIs GoError.errDocumentNotFound GoError.mongoErrNoDocuments = false ∧
    (FileService.DeleteFile "11111111-1111-1111-1111-111111111111"
      ⟨FindOutcome.noDocuments, RemoveOutcome.ok, MetaDeleteOutcome.deleted⟩).1 =
      some GoError.errDocumentNotFound ∧
    (FileService.DeleteFile "11111111-1111-1111-1111-111111111111"
      ⟨FindOutcome.noDocuments, RemoveOutcome.ok, MetaDeleteOutcome.deleted⟩).2 = [] ∧
    deleteErrorStatus (some GoError.errDocumentNotFound) = 500 ∧
    (FileService.ReplaceFile "b" "h" "11111111-1111-1111-1111-111111111111"
      "new.png" 3 "image/png" 0
      ⟨FindOutcome.noDocuments, RemoveOutcome.ok, SaveOutcome.ok, PutOutcome.ok,
       MetaUpdateOutcome.updated, RemoveOutcome.ok⟩).result =
      Except.error GoError.errDocumentNotFound ∧
    (FileService.ReplaceFile "b" "h" "11111111-1111-1111-1111-111111111111"
      "new.png" 3 "image/png" 0
      ⟨FindOutcome.noDocuments, RemoveOutcome.ok, SaveOutcome.ok, PutOutcome.ok,
       MetaUpdateOutcome.updated, RemoveOutcome.ok⟩).trace = [] ∧
    replaceErrorStatus (Except.error GoError.errDocumentNotFound) = 500 ∧
    FileService.GetFileMetadata FindOutcome.noDocuments =
      Except.error GoError.errDocumentNotFound ∧
    getErrorStatus (Except.error GoError.errDocumentNotFound) = 500 := by
  refine ⟨rfl, rfl, rfl, rfl, rfl, rfl, rfl, rfl, rfl⟩

/-- C2: uploading `photo.jpg` under identifier `f2` writes the blob
under key `f2.jpg` but stores `originalName` with the extension
stripped (`photo`), so Delete and Replace recompute the key as
`f2` plus the extension of `photo`, which is empty — they address key
`f2`, not the key `f2.jpg` the blob was stored under. -/
theorem C2_object_key_mismatch :
    (FileService.UploadFile "b" "h" "f2" "photo.jpg" 100 "image/jpeg" 0
      ⟨SaveOutcome.ok, PutOutcome.ok, MetaSaveOutcome.ok, RemoveOutcome.ok⟩).trace =
      [StoreOp.blobPut "f2.jpg", StoreOp.metaInsert "f2"] ∧
    (FileService.UploadFile "b" "h" "f2" "photo.jpg" 100 "image/jpeg" 0
      ⟨SaveOutcome.ok, PutOutcome.ok, MetaSaveOutcome.ok, RemoveOutcome.ok⟩).savedMetadata =
      some ⟨"f2", "photo", 100, "image/jpeg", "b", 0, "http://h/b/f2.jpg"⟩ ∧
    (FileService.DeleteFile "f2"
      ⟨FindOutcome.found ⟨"f2", "photo", 100, "image/jpeg", "b", 0, "http://h/b/f2.jpg"⟩,
       RemoveOutcome.ok, MetaDeleteOutcome.deleted⟩).2 =
      [StoreOp.blobDelete "f2", StoreOp.metaDelete "f2"] ∧
    (FileService.ReplaceFile "b" "h" "f2" "new.png" 1 "image/png" 0
      ⟨FindOutcome.found ⟨"f2", "photo", 100, "image/jpeg", "b", 0, "http://h/b/f2.jpg"⟩,
       RemoveOutcome.ok, SaveOutcome.ok, PutOutcome.ok, MetaUpdateOutcome.updated,
       RemoveOutcome.ok⟩).trace =
      [StoreOp.blobDelete "f2", StoreOp.blobPut "f2.png", StoreOp.metaUpdate "f2"] ∧
    ("f2" : String) ≠ "f2.jpg" := by
  refine ⟨rfl, rfl, rfl, rfl, by decide⟩

/-- C5: whenever the blob put succeeds and the metadata insert fails,
Upload performs exactly one compensating blob delete and returns the
original insert error, for every possible outcome of the compensating
delete itself. -/
theorem C5_metadata_failure_compensates_once
    (bucket endpointHost fileID filename : String) (size : Int)
    (headerContentType : String) (now : Nat) (msg : String)
    (cd : RemoveOutcome) :
    (FileService.UploadFile bucket endpointHost fileID filename size
      headerContentType now
      ⟨SaveOutcome.ok, PutOutcome.ok, MetaSaveOutcome.failure msg, cd⟩).result =
      Except.error (GoError.other msg) ∧
    countBlobDeletes (FileService.UploadFile bucket endpointHost fileID filename
      size headerContentType now
      ⟨SaveOutcome.ok, PutOutcome.ok, MetaSaveOutcome.failure msg, cd⟩).trace = 1 ∧
    (FileService.UploadFile bucket endpointHost fileID filename size
      headerContentType now
      ⟨SaveOutcome.ok, PutOutcome.ok, MetaSaveOutcome.failure msg, cd⟩).savedMetadata =
      none := by
  refine ⟨rfl, rfl, rfl⟩

/-- Witness for C5 at a concrete input. -/
theorem C5_metadata_failure_compensates_once_witness :
    (FileService.UploadFile "b" "h" "f5" "a.png" 1 "image/png" 0
      ⟨SaveOutcome.ok, PutOutcome.ok, MetaSaveOutcome.failure "insert failed",
       RemoveOutcome.noSuchKey⟩).result =
      Except.error (GoError.other "insert failed") ∧
    countBlobDeletes (FileService.UploadFile "b" "h" "f5" "a.png" 1 "image/png" 0
      ⟨SaveOutcome.ok, PutOutcome.ok, MetaSaveOutcome.failure "insert failed",
       RemoveOutcome.noSuchKey⟩).trace = 1 ∧
    (FileService.UploadFile "b" "h" "f5" "a.png" 1 "image/png" 0
      ⟨SaveOutcome.ok, PutOutcome.ok, MetaSaveOutcome.failure "insert failed",
       RemoveOutcome.noSuchKey⟩).savedMetadata = none :=
  C5_metadata_failure_compensates_once "b" "h" "f5" "a.png" 1 "image/png" 0
    "insert failed" RemoveOutcome.noSuchKey

/-- C6: whenever the blob write fails, Upload returns the wrapped
storage error, attempts no metadata insert and no compensating delete,
and persists no record, for every possible later-outcome environment. -/
theorem C6_blob_write_failure_no_metadata
    (bucket endpointHost fileID filename : String) (size : Int)
    (headerContentType : String) (now : Nat) (msg : String)
    (ms : MetaSaveOutcome) (cd : RemoveOutcome) :
    (FileService.UploadFile bucket endpointHost fileID filename size
      headerContentType now
      ⟨SaveOutcome.ok, PutOutcome.failure msg, ms, cd⟩).result =
      Except.error (GoError.wrapped "upload error" (GoError.other msg)) ∧
    countMetaInserts (FileService.UploadFile bucket endpointHost fileID filename
      size headerContentType now
      ⟨SaveOutcome.ok, PutOutcome.failure msg, ms, cd⟩).trace = 0 ∧
    countBlobDeletes (FileService.UploadFile bucket endpointHost fileID filename
      size headerContentType now
      ⟨SaveOutcome.ok, PutOutcome.failure msg, ms, cd⟩).trace = 0 ∧
    (FileService.UploadFile bucket endpointHost fileID filename size
      headerContentType now
      ⟨SaveOutcome.ok, PutOutcome.failure msg, ms, cd⟩).savedMetadata = none := by
  refine ⟨rfl, rfl, rfl, rfl⟩

/-- Witness for C6 at a concrete input. -/
theorem C6_blob_write_failure_no_metadata_witness :
    (FileService.UploadFile "b" "h" "f6" "a.png" 1 "image/png" 0
      ⟨SaveOutcome.ok, PutOutcome.failure "minio down", MetaSaveOutcome.ok,
       RemoveOutcome.ok⟩).result =
      Except.error (GoError.wrapped "upload error" (GoError.other "minio down")) ∧
    countMetaInserts (FileService.UploadFile "b" "h" "f6" "a.png" 1 "image/png" 0
      ⟨SaveOutcome.ok, PutOutcome.failure "minio down", MetaSaveOutcome.ok,
       RemoveOutcome.ok⟩).trace = 0 ∧
    countBlobDeletes (FileService.UploadFile "b" "h" "f6" "a.png" 1 "image/png" 0
      ⟨SaveOutcome.ok, PutOutcome.failure "minio down", MetaSaveOutcome.ok,
       RemoveOutcome.ok⟩).trace = 0 ∧
    (FileService.UploadFile "b" "h" "f6" "a.png" 1 "image/png" 0
      ⟨SaveOutcome.ok, PutOutcome.failure "minio down", MetaSaveOutcome.ok,
       RemoveOutcome.ok⟩).savedMetadata = none :=
  C6_blob_write_failure_no_metadata "b" "h" "f6" "a.png" 1 "image/png" 0
    "minio down" MetaSaveOutcome.ok RemoveOutcome.ok

/-- C10: the authentication gate is plain string equality between the
Authorization header and the `API_KEY` environment value, so when both
are empty (unset secret, absent header) the request proceeds. -/
theorem C10_auth_is_plain_string_equality :
    apiKeyAuth "" "" = AuthDecision.proceed ∧
    ∀ h k : String, apiKeyAuth h k = AuthDecision.proceed ↔ h = k := by
  refine ⟨by decide, ?_⟩
  intro h k
  constructor
  · intro hp
    by_contra hne
    simp [apiKeyAuth, hne] at hp
  · intro he
    simp [apiKeyAuth, he]

/-- Witness for C10 at concrete inputs. -/
theorem C10_auth_is_plain_string_equality_witness :
    apiKeyAuth "" "" = AuthDecision.proceed ∧
    apiKeyAuth "secret" "secret" = AuthDecision.proceed :=
  ⟨C10_auth_is_plain_string_equality.1,
   (C10_auth_is_plain_string_equality.2 "secret" "secret").mpr rfl⟩

/-- C3 counterexample: with the metadata record present and the blob
absent (the store reports `NoSuchKey` on delete), DeleteFile returns
the storage not-found error instead of succeeding, attempts no
metadata delete, and the ingress maps the error to 500 — refuting the
claimed idempotent-delete semantics at this concrete input. -/
theorem C3_blob_absent_counterexample :
    (FileService.DeleteFile "f3"
      ⟨FindOutcome.found ⟨"f3", "doc", 1, "image/png", "b", 0, "u"⟩,
       RemoveOutcome.noSuchKey, MetaDeleteOutcome.deleted⟩).1 =
      some GoError.errFileNotFoundStorage ∧
    countMetaDeletes (FileService.DeleteFile "f3"
      ⟨FindOutcome.found ⟨"f3", "doc", 1, "image/png", "b", 0, "u"⟩,
       RemoveOutcome.noSuchKey, MetaDeleteOutcome.deleted⟩).2 = 0 ∧
    deleteErrorStatus (some GoError.errFileNotFoundStorage) = 500 := by
  refine ⟨rfl, rfl, rfl⟩

/-- C3 amended: when the record exists, DeleteFile aborts on every
blob-delete failure — the store's not-found is surfaced as the storage
sentinel and any other store error as a wrapped delete error, in both
cases without removing the metadata record; the metadata delete is
attempted exactly when the blob delete succeeds. -/
theorem C3_amended_blob_notfound_aborts_delete (fid : String)
    (m : FileMetadata) (dm : MetaDeleteOutcome) (msg : String) :
    (FileService.DeleteFile fid
      ⟨FindOutcome.found m, RemoveOutcome.noSuchKey, dm⟩).1 =
      some GoError.errFileNotFoundStorage ∧
    countMetaDeletes (FileService.DeleteFile fid
      ⟨FindOutcome.found m, RemoveOutcome.noSuchKey, dm⟩).2 = 0 ∧
    (FileService.DeleteFile fid
      ⟨FindOutcome.found m, RemoveOutcome.failure msg, dm⟩).1 =
      some (GoError.wrapped "delete error" (GoError.other msg)) ∧
    countMetaDeletes (FileService.DeleteFile fid
      ⟨FindOutcome.found m, RemoveOutcome.failure msg, dm⟩).2 = 0 ∧
    countMetaDeletes (FileService.DeleteFile fid
      ⟨FindOutcome.found m, RemoveOutcome.ok, dm⟩).2 = 1 := by
  refine ⟨rfl, rfl, rfl, rfl, ?_⟩
  cases dm <;> rfl

/-- C7 counterexample: on Replace, when the old-blob delete reports the
blob already absent, Replace aborts with the storage not-found error
and never uploads the new blob — refuting the claim that it continues
past an already-absent old blob. -/
theorem C7_old_blob_absent_counterexample :
    (FileService.ReplaceFile "b" "h" "f7" "new.jpg" 2 "image/jpeg" 0
      ⟨FindOutcome.found ⟨"f7", "doc", 1, "image/png", "b", 0, "u"⟩,
       RemoveOutcome.noSuchKey, SaveOutcome.ok, PutOutcome.ok,
       MetaUpdateOutcome.updated, RemoveOutcome.ok⟩).result =
      Except.error GoError.errFileNotFoundStorage ∧
    countBlobPuts (FileService.ReplaceFile "b" "h" "f7" "new.jpg" 2 "image/jpeg" 0
      ⟨FindOutcome.found ⟨"f7", "doc", 1, "image/png", "b", 0, "u"⟩,
       RemoveOutcome.noSuchKey, SaveOutcome.ok, PutOutcome.ok,
       MetaUpdateOutcome.updated, RemoveOutcome.ok⟩).trace = 0 := by
  refine ⟨rfl, rfl⟩

/-- C7 amended: Replace aborts before writing any new blob on every
old-blob-delete failure, already-absent included (surfaced as the
storage not-found sentinel, other errors as wrapped delete errors);
it proceeds to the new-blob upload exactly when the old-blob delete
succeeds. -/
theorem C7_amended_old_delete_error_aborts_replace
    (bucket endpointHost fid newFilename : String) (newSize : Int)
    (hct : String) (now : Nat) (m : FileMetadata) (sv : SaveOutcome)
    (p : PutOutcome) (mu : MetaUpdateOutcome) (cd : RemoveOutcome)
    (msg : String) :
    (FileService.ReplaceFile bucket endpointHost fid newFilename newSize hct now
      ⟨FindOutcome.found m, RemoveOutcome.noSuchKey, sv, p, mu, cd⟩).result =
      Except.error GoError.errFileNotFoundStorage ∧
    countBlobPuts (FileService.ReplaceFile bucket endpointHost fid newFilename
      newSize hct now
      ⟨FindOutcome.found m, RemoveOutcome.noSuchKey, sv, p, mu, cd⟩).trace = 0 ∧
    (FileService.ReplaceFile bucket endpointHost fid newFilename newSize hct now
      ⟨FindOutcome.found m, RemoveOutcome.failure msg, sv, p, mu, cd⟩).result =
      Except.error (GoError.wrapped "delete error" (GoError.other msg)) ∧
    countBlobPuts (FileService.ReplaceFile bucket endpointHost fid newFilename
      newSize hct now
      ⟨FindOutcome.found m, RemoveOutcome.failure msg, sv, p, mu, cd⟩).trace = 0 ∧
    countBlobPuts (FileService.ReplaceFile bucket endpointHost fid newFilename
      newSize hct now
      ⟨FindOutcome.found m, RemoveOutcome.ok, SaveOutcome.ok, PutOutcome.ok,
       mu, cd⟩).trace = 1 := by
  refine ⟨rfl, rfl, rfl, rfl, ?_⟩
  cases mu <;> rfl

/-- C8 counterexample: when the copy into the temporary file fails
after the file was created, Upload returns the copy error but the
partially written staging file is left behind — the cleanup is
registered only after a successful save, refuting guaranteed release
on every exit path. -/
theorem C8_copy_failure_leaks_temp_file :
    (FileService.UploadFile "b" "h" "f8" "v.mp4" 5 "video/mp4" 0
      ⟨SaveOutcome.copyFailure "copy interrupted", PutOutcome.ok,
       MetaSaveOutcome.ok, RemoveOutcome.ok⟩).tempFileRemains = true ∧
    (FileService.UploadFile "b" "h" "f8" "v.mp4" 5 "video/mp4" 0
      ⟨SaveOutcome.copyFailure "copy interrupted", PutOutcome.ok,
       MetaSaveOutcome.ok, RemoveOutcome.ok⟩).result =
      Except.error (GoError.other "copy interrupted") ∧
    (FileService.ReplaceFile "b" "h" "f8" "v.mp4" 5 "video/mp4" 0
      ⟨FindOutcome.found ⟨"f8", "doc", 1, "image/png", "b", 0, "u"⟩,
       RemoveOutcome.ok, SaveOutcome.copyFailure "copy interrupted",
       PutOutcome.ok, MetaUpdateOutcome.updated, RemoveOutcome.ok⟩).tempFileRemains =
      true := by
  refine ⟨rfl, rfl, rfl⟩

/-- C8 amended: for both Upload and Replace the staging file survives
the request exactly when `saveUploadedFile` fails during the stream
copy after creating the file; on every other path — earlier save
failures, blob-write failure, metadata failure, success, or Replace
aborting before staging — no staging file outlives the request. -/
theorem C8_amended_cleanup_only_after_successful_save
    (bucket endpointHost fid filename : String) (sz : Int) (hct : String)
    (now : Nat) (sv : SaveOutcome) (p : PutOutcome) (ms : MetaSaveOutcome)
    (cd : RemoveOutcome) (m : FileMetadata) (sv2 : SaveOutcome)
    (p2 : PutOutcome) (mu2 : MetaUpdateOutcome) (cd2 : RemoveOutcome) :
    (FileService.UploadFile bucket endpointHost fid filename sz hct now
      ⟨sv, p, ms, cd⟩).tempFileRemains = sv.leavesPartialFile ∧
    (FileService.ReplaceFile bucket endpointHost fid filename sz hct now
      ⟨FindOutcome.found m, RemoveOutcome.ok, sv2, p2, mu2, cd2⟩).tempFileRemains =
      sv2.leavesPartialFile ∧
    (FileService.ReplaceFile bucket endpointHost fid filename sz hct now
      ⟨FindOutcome.found m, RemoveOutcome.noSuchKey, sv2, p2, mu2, cd2⟩).tempFileRemains =
      false ∧
    (FileService.ReplaceFile bucket endpointHost fid filename sz hct now
      ⟨FindOutcome.noDocuments, RemoveOutcome.ok, sv2, p2, mu2, cd2⟩).tempFileRemains =
      false := by
  refine ⟨?_, ?_, rfl, rfl⟩
  · cases sv
    case copyFailure msg => rfl
    case openFailure msg => rfl
    case mkdirFailure msg => rfl
    case createFailure msg => rfl
    case ok =>
      cases p
      case failure msg => rfl
      case ok => cases ms <;> rfl
  · cases sv2
    case copyFailure msg => rfl
    case openFailure msg => rfl
    case mkdirFailure msg => rfl
    case createFailure msg => rfl
    case ok =>
      cases p2
      case failure msg => rfl
      case ok => cases mu2 <;> rfl

/-- C4 counterexample: a file named `a.jpg` whose first bytes sniff as
`image/png` is admitted by the validation gate (status 200 with all
stores healthy) and the blob write is performed — refuting the claim
that an extension/sniffed-type mismatch is rejected before any storage
write. -/
theorem C4_extension_mismatch_admitted_counterexample :
    (FileHandler.UploadFile "a.jpg" 10 "image/jpeg"
      (DetectOutcome.detected "image/png") "f4" "b" "h" 0
      ⟨SaveOutcome.ok, PutOutcome.ok, MetaSaveOutcome.ok, RemoveOutcome.ok⟩).admitted =
      true ∧
    (FileHandler.UploadFile "a.jpg" 10 "image/jpeg"
      (DetectOutcome.detected "image/png") "f4" "b" "h" 0
      ⟨SaveOutcome.ok, PutOutcome.ok, MetaSaveOutcome.ok, RemoveOutcome.ok⟩).status =
      200 ∧
    countBlobPuts (FileHandler.UploadFile "a.jpg" 10 "image/jpeg"
      (DetectOutcome.detected "image/png") "f4" "b" "h" 0
      ⟨SaveOutcome.ok, PutOutcome.ok, MetaSaveOutcome.ok, RemoveOutcome.ok⟩).trace =
      1 := by
  refine ⟨by decide, by decide, by decide⟩

/-- C4 amended: the upload gate admits a file exactly when its
lowercased extension is in the extension allow-list and the sniffed
type is in the type allow-list — the two memberships are checked
independently, with no correspondence required between extension and
sniffed type; detection failure rejects, and every rejection performs
no store operation. -/
theorem C4_amended_gate_checks_memberships_independently
    (filename : String) (sz : Int) (hct ct fid bucket endpointHost : String)
    (now : Nat) (env : UploadEnv) (msg : String) :
    (FileHandler.UploadFile filename sz hct (DetectOutcome.detected ct)
      fid bucket endpointHost now env).admitted =
      (allowedExtensionsUpload.contains (stringToLower (filepathExt filename)) &&
        allowedTypesUpload.contains ct) ∧
    (FileHandler.UploadFile filename sz hct (DetectOutcome.failure msg)
      fid bucket endpointHost now env).admitted = false ∧
    ((FileHandler.UploadFile filename sz hct (DetectOutcome.detected ct)
      fid bucket endpointHost now env).admitted = false →
      (FileHandler.UploadFile filename sz hct (DetectOutcome.detected ct)
        fid bucket endpointHost now env).trace = []) := by
  by_cases hext :
      stringToLower (filepathExt filename) ∈ allowedExtensionsUpload <;>
    by_cases hty : ct ∈ allowedTypesUpload <;>
      simp [FileHandler.UploadFile, hext, hty]

/-- Witness for C4 amended: a `.txt` upload is not admitted and
performs no store operation. -/
theorem C4_amended_gate_witness :
    (FileHandler.UploadFile "a.txt" 1 "text/plain"
      (DetectOutcome.detected "text/plain") "f" "b" "h" 0
      ⟨SaveOutcome.ok, PutOutcome.ok, MetaSaveOutcome.ok, RemoveOutcome.ok⟩).admitted =
      false ∧
    (FileHandler.UploadFile "a.txt" 1 "text/plain"
      (DetectOutcome.detected "text/plain") "f" "b" "h" 0
      ⟨SaveOutcome.ok, PutOutcome.ok, MetaSaveOutcome.ok, RemoveOutcome.ok⟩).trace =
      [] := by
  refine ⟨by decide,
    (C4_amended_gate_checks_memberships_independently "a.txt" 1 "text/plain"
      "text/plain" "f" "b" "h" 0
      ⟨SaveOutcome.ok, PutOutcome.ok, MetaSaveOutcome.ok, RemoveOutcome.ok⟩
      "unused").2.2 (by decide)⟩

/-- C9 counterexample: a `.png` upload whose bytes sniff as `image/png`
but whose client-declared Content-Type header is `text/plain` is
admitted, and the persisted record stores `text/plain` — a declared
type that differs from the sniffed type — refuting the claim that a
record is never persisted with a declared type differing from the
sniffed type. -/
theorem C9_declared_type_differs_from_sniffed_counterexample :
    (FileHandler.UploadFile "a.png" 10 "text/plain"
      (DetectOutcome.detected "image/png") "f9c" "b" "h" 0
      ⟨SaveOutcome.ok, PutOutcome.ok, MetaSaveOutcome.ok, RemoveOutcome.ok⟩).status =
      200 ∧
    (FileHandler.UploadFile "a.png" 10 "text/plain"
      (DetectOutcome.detected "image/png") "f9c" "b" "h" 0
      ⟨SaveOutcome.ok, PutOutcome.ok, MetaSaveOutcome.ok, RemoveOutcome.ok⟩).savedMetadata =
      some ⟨"f9c", "a", 10, "text/plain", "b", 0, "http://h/b/f9c.png"⟩ ∧
    ("text/plain" : String) ≠ "image/png" := by
  refine ⟨by decide, by decide, by decide⟩

/-- C9 amended: every record persisted by an admitted upload stores the
client-declared Content-Type header in `contentType`; validation
constrains only the sniffed type's allow-list membership and never
compares the declared header against the sniffed type. -/
theorem C9_amended_stored_type_is_declared_header
    (filename : String) (sz : Int) (hct ct fid bucket endpointHost : String)
    (now : Nat) (env : UploadEnv) (m : FileMetadata)
    (h : (FileHandler.UploadFile filename sz hct (DetectOutcome.detected ct)
          fid bucket endpointHost now env).savedMetadata = some m) :
    m.contentType = hct := by
  by_cases hext : stringToLower (filepathExt filename) ∈ allowedExtensionsUpload
  · by_cases hty : ct ∈ allowedTypesUpload
    · simp [FileHandler.UploadFile, hext, hty] at h
      exact uploadFile_savedMetadata_contentType bucket endpointHost fid
        filename sz hct now env m h
    · simp [FileHandler.UploadFile, hext, hty] at h
  · simp [FileHandler.UploadFile, hext] at h

/-- Witness for C9 amended at a concrete admitted upload. -/
theorem C9_amended_stored_type_witness :
    (FileHandler.UploadFile "a.png" 10 "text/plain"
      (DetectOutcome.detected "image/png") "f9" "b" "h" 0
      ⟨SaveOutcome.ok, PutOutcome.ok, MetaSaveOutcome.ok, RemoveOutcome.ok⟩).savedMetadata =
      some ⟨"f9", "a", 10, "text/plain", "b", 0, "http://h/b/f9.png"⟩ ∧
    FileMetadata.contentType ⟨"f9", "a", 10, "text/plain", "b", 0, "http://h/b/f9.png"⟩ =
      "text/plain" := by
  refine ⟨by decide, ?_⟩
  exact C9_amended_stored_type_is_declared_header "a.png" 10 "text/plain"
    "image/png" "f9" "b" "h" 0
    ⟨SaveOutcome.ok, PutOutcome.ok, MetaSaveOutcome.ok, RemoveOutcome.ok⟩
    ⟨"f9", "a", 10, "text/plain", "b", 0, "http://h/b/f9.png"⟩ (by decide)
